import Mathlib

/-!
Verification development for the periscope/UNIS versioned resource store.

The definitions below are a shallow embedding of the Python sources:

* periscope/handlers/networkresource_handler.py
  (query-string compiler, latest-revision resolver, delete handler,
  handler initialization),
* periscope/models/unis.py (insert_resource, rollback, write_psjson),
* periscope/db.py (DB layer insert with id and timestamp
  assignment, insert callback, asyncmongo tailing cursor).

Documents are modelled as association lists from field names to
primitive values; Python dictionaries preserve entry identity only up
to key lookup, and every operation below accesses documents solely
through key lookup, so the association-list view is faithful.
-/

/-- Primitive BSON-style values stored in documents: strings, integers
(version timestamps are integer microsecond counts), booleans and null. -/
inductive Prim where
  | s (v : String)
  | i (v : Int)
  | b (v : Bool)
  | null
deriving DecidableEq, Repr

/-- A flat stored document: an association list from field names to
primitive values.  The handlers under verification access only
top-level fields, so nesting of stored documents is not modelled. -/
abbrev FlatDoc := List (String × Prim)

/-- Field lookup in a document, first binding wins (Python dict lookup). -/
def lookupF (k : String) (d : FlatDoc) : Option Prim :=
  match d with
  | [] => none
  | (k2, v) :: rest => if k2 = k then some v else lookupF k rest

/-! ## Query-string compiler

Embedding of NetworkResourceHandler._parse_get_arguments
(networkresource_handler.py lines 208-328).  Raw parameter values are
Python strings, modelled as lists of characters so that the
splitting and stripping recursions are structural. -/

abbrev Chars := List Char

/-- Python str.split with a one-character separator: splits at every
occurrence, keeping empty pieces, and yields one (empty) piece for the
empty string. -/
def pySplit (sep : Char) : Chars → List Chars
  | [] => [[]]
  | c :: cs =>
    let r := pySplit sep cs
    if c = sep then [] :: r
    else
      match r with
      | t :: ts => (c :: t) :: ts
      | [] => [[c]]

/-- Python str.split(sep, 1) for a one-character separator: split at
the first occurrence only. -/
def pySplitOnce (sep : Char) : Chars → List Chars
  | [] => [[]]
  | c :: cs =>
    if c = sep then [[], cs]
    else
      match pySplitOnce sep cs with
      | t :: ts => (c :: t) :: ts
      | [] => [[c]]

/-- Python str.lstrip(chars): drop leading characters that belong to the
given character set.  Note this strips a character SET, not a string
one-to-one, exactly as Python does. -/
def pyLstrip (set : Chars) (v : Chars) : Chars :=
  v.dropWhile (fun c => c ∈ set)

/-- Python str.lower for the ASCII values used by the boolean table. -/
def pyLower (v : Chars) : Chars := v.map Char.toLower

/-- Typed values produced by convert_value_type: strings, Python ints,
Python floats (modelled as rationals) and booleans. -/
inductive QPrim where
  | qs (v : Chars)
  | qi (v : Int)
  | qn (v : ℚ)
  | qb (v : Bool)
deriving DecidableEq, Repr

/-- Results of process_value on a comma-free value: either a typed
primitive or a range-operator document such as the value of
lt=, lte=, gt=, gte= processing. -/
inductive RVal where
  | prim (v : QPrim)
  | range (op : String) (v : RVal)
deriving DecidableEq, Repr

/-- Results of process_value on an arbitrary value: a comma-free result,
or a set-membership document with the per-token results. -/
inductive PVal where
  | base (v : RVal)
  | inq (vs : List RVal)
deriving DecidableEq, Repr

/-- One field-to-predicate pair of a compiled query document. -/
structure QAtom where
  key : Chars
  val : PVal
deriving DecidableEq, Repr

/-- One member of the top-level AND list built by _parse_get_arguments:
either a single-field document or a disjunction document. -/
inductive QClause where
  | single (a : QAtom)
  | orq (alts : List QAtom)
deriving DecidableEq, Repr

/-- Tests whether a compiled clause is a single-field document, the
shape a set-membership predicate on one parameter has. -/
def isSingleClause : QClause → Bool
  | .single _ => true
  | .orq _ => false

/-- Compiler failure: HTTPError(400, message). -/
structure CompileErr where
  status : Nat
  msg : String
deriving DecidableEq, Repr

/-- Parse a decimal integer literal the way Python int() does on the
inputs exercised here: an optional sign followed by decimal digits. -/
def parsePyInt (v : Chars) : Option Int :=
  let core : Chars → Option Nat := fun ds =>
    if ds = [] then none
    else if ds.all Char.isDigit then
      some (ds.foldl (fun acc c => acc * 10 + (c.toNat - 48)) 0)
    else none
  match v with
  | '-' :: rest => (core rest).map (fun n => -(n : Int))
  | '+' :: rest => (core rest).map (fun n => (n : Int))
  | _ => (core v).map (fun n => (n : Int))

/-- Parse a decimal numeral the way Python float() does on the inputs
exercised here: an optional sign, an integer part, and an optional
fractional part, modelled exactly as a rational number. -/
def parsePyFloat (v : Chars) : Option ℚ :=
  let digitsVal : Chars → Nat := fun ds =>
    ds.foldl (fun acc c => acc * 10 + (c.toNat - 48)) 0
  let core : Chars → Option ℚ := fun ds =>
    match pySplit '.' ds with
    | [ip] =>
      if ip ≠ [] ∧ ip.all Char.isDigit then some ((digitsVal ip : ℚ)) else none
    | [ip, fp] =>
      if (ip ≠ [] ∨ fp ≠ []) ∧ ip.all Char.isDigit ∧ fp.all Char.isDigit then
        some ((digitsVal ip : ℚ) + (digitsVal fp : ℚ) / ((10 : ℚ) ^ fp.length))
      else none
    | _ => none
  match v with
  | '-' :: rest => (core rest).map (fun q => -q)
  | '+' :: rest => core rest
  | _ => core v

/-- Embedding of convert_value_type(key, value, val_type)
(networkresource_handler.py lines 210-237): explicit type conversion,
raising HTTPError(400) on failure or on an unknown type name. -/
def convert_value_type (key : Chars) (value : Chars) (valType : String) :
    Except CompileErr QPrim :=
  match valType with
  | "integer" =>
    match parsePyInt value with
    | some n => .ok (.qi n)
    | none => .error ⟨400, String.mk key ++ " is not of type integer"⟩
  | "number" =>
    match parsePyFloat value with
    | some q => .ok (.qn q)
    | none => .error ⟨400, String.mk key ++ " is not of type number"⟩
  | "string" => .ok (.qs value)
  | "boolean" =>
    match pyLower value with
    | ['t', 'r', 'u', 'e'] => .ok (.qb true)
    | ['f', 'a', 'l', 's', 'e'] => .ok (.qb false)
    | ['1'] => .ok (.qb true)
    | ['0'] => .ok (.qb false)
    | _ => .error ⟨400, String.mk key ++ " is not of type boolean"⟩
  | _ => .error ⟨400, "Unknown value type for " ++ String.mk key⟩

deriving instance DecidableEq for Except

/-- The range operators probed by process_value, in source order. -/
def rangeOps : List String := ["lt", "lte", "gt", "gte"]

/-- The explicit type markers probed by process_value, in source order. -/
def typeMarkers : List String := ["integer", "number", "string", "boolean"]

/-- Embedding of process_value (networkresource_handler.py lines
239-258) restricted to comma-free values, which is the only way
process_value reaches its operator, type-marker and default branches:
the comma branch splits the value and every resulting token is
comma-free.  The fuel argument bounds the recursion depth through the
operator branch; every recursive call is on value.lstrip(op + "=")
which is strictly shorter than value, so fuel = length value + 1 never
runs out. -/
def process_value_nc (key : Chars) : Nat → Chars → Except CompileErr RVal
  | 0, _ => .error ⟨400, "recursion fuel exhausted"⟩
  | fuel + 1, value =>
    match rangeOps.find? (fun op => (op ++ "=").toList.isPrefixOf value) with
    | some op =>
      (process_value_nc key fuel (pyLstrip (op ++ "=").toList value)).map
        (fun r => .range ("$" ++ op) r)
    | none =>
      match typeMarkers.find? (fun t => (t ++ ":").toList.isPrefixOf value) with
      | some t =>
        (convert_value_type key (value.drop (t ++ ":").length) t).map .prim
      | none =>
        if key = "ts".toList ∨ key = "ttl".toList then
          (convert_value_type key value "number").map .prim
        else .ok (.prim (.qs value))

/-- Embedding of process_value (networkresource_handler.py lines
239-258): a value containing a comma is split and compiled to the
set-membership document produced by process_in_query; otherwise the
comma-free processing applies. -/
def process_value (key : Chars) (value : Chars) : Except CompileErr PVal :=
  let parts := pySplit ',' value
  if parts.length > 1 then
    (parts.mapM (fun t => process_value_nc key (t.length + 1) t)).map .inq
  else
    (process_value_nc key (value.length + 1) value).map .base

/-- Embedding of process_in_query (networkresource_handler.py lines
260-262): the single-field document carrying the set-membership
predicate over the per-token-converted values. -/
def process_in_query (key : Chars) (values : List Chars) :
    Except CompileErr QAtom :=
  (values.mapM (fun t => process_value_nc key (t.length + 1) t)).map
    (fun vs => ⟨key, .inq vs⟩)

/-- Embedding of process_or_query (networkresource_handler.py lines
264-276): the first alternative keeps the parameter name, later
alternatives carry their own field=value syntax; an alternative without
an equal sign raises HTTPError(400). -/
def process_or_query (key : Chars) (values : List Chars) :
    Except CompileErr (List QAtom) :=
  match values with
  | [] => .ok []
  | v0 :: rest =>
    (process_value key v0).bind (fun p0 =>
      (rest.mapM (fun v =>
        match pySplitOnce '=' v with
        | [k, w] => (process_value k w).map (fun p => QAtom.mk k p)
        | _ => .error ⟨400, "Not valid OR query."⟩)).map
        (fun alts => ⟨key, p0⟩ :: alts))

/-- Embedding of the per-parameter body of the _parse_get_arguments
main loop (networkresource_handler.py lines 311-322) for a parameter
with one raw value: split first on the pipe character (OR), then on the
comma (IN), and otherwise process the single value. -/
def compile_arg_value (key : Chars) (value : Chars) :
    Except CompileErr QClause :=
  let split_or := pySplit '|' value
  if split_or.length > 1 then
    (process_or_query key split_or).map .orq
  else
    let split := pySplit ',' value
    if split.length > 1 then
      (process_in_query key split).map .single
    else
      (process_value key value).map (fun p => .single ⟨key, p⟩)

/-! ## Latest-revision resolver

Embedding of the aggregation pipeline built by
NetworkResourceHandler.get_psjson (networkresource_handler.py lines
361-424) and of the MongoDB stages it uses: a match stage, a group
stage with a document key and a max accumulator, a projection stage
with field-path expressions, and a group stage with an addToSet
accumulator.  The base filter handed to the match stage is abstracted
as an arbitrary boolean predicate on documents. -/

/-- Values occurring in intermediate pipeline documents: a primitive or
a one-level sub-document, which is the shape the group key introduces. -/
inductive AVal where
  | p (v : Prim)
  | sub (d : List (String × Prim))
deriving DecidableEq, Repr

/-- An intermediate pipeline document. -/
abbrev ADoc := List (String × AVal)

/-- Field lookup in an intermediate pipeline document. -/
def lookupA (k : String) (d : ADoc) : Option AVal :=
  match d with
  | [] => none
  | (k2, v) :: rest => if k2 = k then some v else lookupA k rest

/-- Group key of the first group stage: the document expression
with inner field name _id holding the value of the identifier field and
inner field selfRef holding the selfRef value; a missing source field is
omitted from the key document, as MongoDB does for document
expressions. -/
def group_key (idField : String) (d : FlatDoc) : List (String × Prim) :=
  (match lookupF idField d with
   | some v => [("_id", v)]
   | none => []) ++
  (match lookupF "selfRef" d with
   | some v => [("selfRef", v)]
   | none => [])

/-- Deduplication keeping the first occurrence of each element. -/
def firstDedupAux {α : Type} [DecidableEq α] (seen : List α) :
    List α → List α
  | [] => []
  | a :: as =>
    if a ∈ seen then firstDedupAux seen as
    else a :: firstDedupAux (a :: seen) as

/-- Deduplication keeping the first occurrence of each element. -/
def firstDedup {α : Type} [DecidableEq α] (l : List α) : List α :=
  firstDedupAux [] l

/-- BSON canonical type rank restricted to the primitives modelled:
null sorts below numbers, numbers below strings, strings below
booleans. -/
def primRank : Prim → Nat
  | .null => 0
  | .i _ => 1
  | .s _ => 2
  | .b _ => 3

/-- BSON comparison on primitives: by type rank, then within ints by
integer order, within strings lexicographically, within booleans with
false below true. -/
def primLe (a c : Prim) : Bool :=
  match a, c with
  | .i x, .i y => x ≤ y
  | .s x, .s y => x ≤ y
  | .b x, .b y => !x || y
  | _, _ => primRank a ≤ primRank c

/-- Binary maximum under the BSON comparison. -/
def primMax (a c : Prim) : Prim := if primLe a c then c else a

/-- The max accumulator of the first group stage over the timestamp
field of one group: missing values are ignored and a group with no
value yields null, as MongoDB max does. -/
def max_ts (idField tsField : String) (k : List (String × Prim))
    (docs : List FlatDoc) : Prim :=
  match (docs.filter (fun d => group_key idField d = k)).filterMap
      (lookupF tsField) with
  | [] => .null
  | v :: vs => vs.foldl primMax v

/-- The first group stage of get_psjson: group the matched revisions by
the key document and take the maximum timestamp of each group.  Output
group order is first encounter order. -/
def group_stage (idField tsField : String) (docs : List FlatDoc) :
    List ADoc :=
  (firstDedup (docs.map (group_key idField))).map
    (fun k => [("_id", AVal.sub k), (tsField, AVal.p (max_ts idField tsField k docs))])

/-- A two-component field path such as the projection expression on
path _id.<Id>: look up the first component, then look up the second
component inside the sub-document found there. -/
def eval_path2 (f g : String) (d : ADoc) : Option Prim :=
  match lookupA f d with
  | some (.sub dd) => lookupF g dd
  | _ => none

/-- The projection stage of get_psjson: keep _id (implicit in MongoDB
projections), bind the identifier field to the path _id.<Id> into the
group key, and bind the timestamp field to the max timestamp; a missing
path omits the output field. -/
def project_stage (idField tsField : String) (g : ADoc) : ADoc :=
  (match lookupA "_id" g with
   | some v => [("_id", v)]
   | none => []) ++
  (match eval_path2 "_id" idField g with
   | some v => [(idField, AVal.p v)]
   | none => []) ++
  (match lookupA tsField g with
   | some v => [(tsField, v)]
   | none => [])

/-- One element accumulated by the final addToSet stage: the document
expression with the identifier field and the timestamp field of a
projected document, omitting missing fields. -/
def set_element (idField tsField : String) (d : ADoc) : ADoc :=
  (match lookupA idField d with
   | some v => [(idField, v)]
   | none => []) ++
  (match lookupA tsField d with
   | some v => [(tsField, v)]
   | none => [])

/-- The full aggregation of get_psjson followed by the handler's result
unwrapping: when the pipeline input is empty the final group emits no
document and the handler substitutes an empty set. -/
def aggregate_set (idField tsField : String) (docs : List FlatDoc)
    (matchP : FlatDoc → Bool) : List ADoc :=
  let matched := docs.filter matchP
  let grouped := group_stage idField tsField matched
  let projected := grouped.map (project_stage idField tsField)
  if projected = [] then []
  else firstDedup (projected.map (set_element idField tsField))

/-- The handler's set post-processing (networkresource_handler.py lines
412-416): an aggregate result whose set is the single empty document is
replaced by the empty set. -/
def resolve_set (idField tsField : String) (docs : List FlatDoc)
    (matchP : FlatDoc → Bool) : List ADoc :=
  let s := aggregate_set idField tsField docs matchP
  if s = [[]] then [] else s

/-- The find filter written by get_psjson: documents matching any
disjunct of the resolved set, each disjunct being an equality document.
An empty disjunction matches nothing. -/
def or_filter (set : List ADoc) (d : FlatDoc) : Bool :=
  set.any (fun clause =>
    clause.all (fun kv =>
      match kv.2 with
      | .p v => lookupF kv.1 d = some v
      | .sub _ => false))

/-! ## Result stream writer

Embedding of write_psjson (models/unis.py lines 207-267).  The
database cursor is modelled by the list of documents it yields in
order; the serializer dumps_mongo is abstracted as a rendering
function; set_status keeps the last status set, starting from the
framework default 200. -/

/-- Accumulated response state: ordered chunks written so far and the
current response status. -/
structure WState where
  writes : List String
  status : Nat
deriving DecidableEq, Repr

/-- A document counts as deleted when its status field holds the string
DELETED. -/
def isDeletedDoc (d : FlatDoc) : Bool :=
  lookupF "status" d = some (.s "DELETED")

/-- The document loop of write_psjson.  Arguments mirror the Python
locals: remaining cursor documents, first_list, found_one, and the
response state.  Returns the final state and found_one. -/
def write_psjson_loop (render : FlatDoc → String) (successStatus : Nat)
    (isList includeDeleted showLocation : Bool) :
    List FlatDoc → Bool → Bool → WState → WState × Bool
  | [], _, foundOne, st => (st, foundOne)
  | d :: rest, firstList, _, st =>
    if isDeletedDoc d ∧ ¬includeDeleted then
      if isList then
        write_psjson_loop render successStatus isList includeDeleted
          showLocation rest firstList true st
      else ({ st with status := 410 }, true)
    else
      let st1 := if ¬isList ∧ showLocation then
          { st with status := successStatus } else st
      let step : WState × Bool :=
        if firstList then ({ st1 with status := successStatus }, false)
        else if isList then
          ({ st1 with writes := st1.writes ++ [",\n"] }, firstList)
        else (st1, firstList)
      let st2 := { step.1 with writes := step.1.writes ++ [render d] }
      if ¬isList then (st2, true)
      else
        write_psjson_loop render successStatus isList includeDeleted
          showLocation rest step.2 true st2

/-- Embedding of write_psjson (models/unis.py lines 207-267) with
full_representation fixed to true as in every call site under
verification: the cursor documents are written with list delimiters and
separators in list mode, deleted documents are skipped in list mode or
turn into status 410 in single mode, an empty result yields 404 in
single mode and the success status in list mode. -/
def write_psjson (render : FlatDoc → String) (successStatus : Nat)
    (isList includeDeleted showLocation : Bool) (docs : List FlatDoc) :
    WState :=
  let st0 : WState := ⟨if isList then ["[\n"] else [], 200⟩
  let r := write_psjson_loop render successStatus isList includeDeleted
    showLocation docs isList false st0
  let st1 := if ¬r.2 then
      { r.1 with status := if ¬isList then 404 else successStatus }
    else r.1
  let st2 := if isList then
      { st1 with writes := st1.writes ++ ["\n]\n"] } else st1
  { st2 with writes := st2.writes ++ ["\n"] }

/-- Embedding of the tail of get_psjson (networkresource_handler.py
lines 407-424): resolve the latest-revision set, answer 404 for an
empty set on a single-resource request, and otherwise run write_psjson
over the documents matching the disjunction of the set with success
status 200. -/
def get_psjson (render : FlatDoc → String) (store : List FlatDoc)
    (matchP : FlatDoc → Bool) (isList : Bool) : Nat × List String :=
  let s := resolve_set "id" "ts" store matchP
  if s = [] ∧ isList = false then (404, [])
  else
    let found := store.filter (or_filter s)
    let w := write_psjson render 200 isList false false found
    (w.status, w.writes)

/-! ## Delete handler

Embedding of NetworkResourceHandler.delete (networkresource_handler.py
lines 726-775).  The handler finds all revisions carrying the resource
identifier with an unsorted find, so the revisions arrive in natural
(insertion) order; it then inspects the FIRST fetched revision. -/

/-- Result of a delete request: the response status, the numeric error
code (0 on plain success), and the store after the request. -/
structure DeleteResult where
  status : Nat
  code : Nat
  store : List FlatDoc
deriving DecidableEq, Repr

/-- The latest revision of a logical resource per the data model: the
revision carrying the identifier whose version timestamp is maximal
under the BSON comparison.  Modelled from the spec (section 3 and
glossary); the handler itself does not compute this. -/
def latestRevision (store : List FlatDoc) (resId : String) :
    Option FlatDoc :=
  let revs := store.filter (fun d => lookupF "id" d = some (.s resId))
  revs.foldl
    (fun acc d =>
      match acc with
      | none => some d
      | some best =>
        match lookupF "ts" best, lookupF "ts" d with
        | some tb, some td => if primLe tb td ∧ tb ≠ td then some d else acc
        | none, some _ => some d
        | _, _ => acc)
    none

/-- Embedding of the delete handler: fetch all revisions with the given
identifier in store order, answer 404 when none exists, answer 410
without writing when the first fetched revision is already DELETED, and
otherwise append a copy of the first fetched revision with status
DELETED and the current time as its new timestamp. -/
def delete_handler (store : List FlatDoc) (resId : String) (now : Int) :
    DeleteResult :=
  let response := store.filter (fun d => lookupF "id" d = some (.s resId))
  match response with
  | [] => ⟨404, 404002, store⟩
  | first :: _ =>
    if lookupF "status" first = some (.s "DELETED") then
      ⟨410, 410001, store⟩
    else
      let tombstone := (first.filter
          (fun kv => kv.1 ≠ "status" ∧ kv.1 ≠ "ts")) ++
        [("status", Prim.s "DELETED"), ("ts", Prim.i now)]
      ⟨200, 0, store ++ [tombstone]⟩

/-! ## Batch insert with compensating rollback

Embedding of NetworkResource.insert_resource and NetworkResource
rollback (models/unis.py lines 98-189) over a store with the unique
index on the pair of identifier and timestamp fields that the
deployment creates (test/base.py line 109).  The JSON parsing and
schema validation prologue, which can only answer 400 before any
database work happens, is not modelled. -/

/-- Python substring membership (the in operator) on character lists:
true when the needle occurs contiguously in the haystack. -/
def substrIn (needle : Chars) : Chars → Bool
  | [] => needle.isEmpty
  | c :: cs => needle.isPrefixOf (c :: cs) || substrIn needle cs

/-- Two documents collide on the unique index when they agree on both
the identifier field and the timestamp field. -/
def samePair (d e : FlatDoc) : Bool :=
  lookupF "id" d = lookupF "id" e ∧ lookupF "ts" d = lookupF "ts" e

/-- Sequential MongoDB insert of a batch without continue-on-error:
documents are appended one at a time and the first unique-index
collision stops the batch with a duplicate-key error, leaving the
previously inserted documents in place. -/
def mongo_insert_seq (store : List FlatDoc) :
    List FlatDoc → List FlatDoc × Option String
  | [] => (store, none)
  | d :: rest =>
    if store.any (samePair d) then
      (store, some "E11000 duplicate key error index id_1_ts_-1")
    else mongo_insert_seq (store ++ [d]) rest

/-- Embedding of the rollback remove (models/unis.py lines 98-107): a
remove whose filter is the disjunction of the identifier and timestamp
pairs of every resource of the batch. -/
def rollback_remove (store : List FlatDoc) (resources : List FlatDoc) :
    List FlatDoc :=
  store.filter (fun e => !(resources.any (fun r => samePair r e)))

/-- Error envelope handed to the handler callback. -/
structure ErrEnvelope where
  status_code : Nat
  code : Nat
deriving DecidableEq, Repr

/-- Embedding of the error classification of insert_resource
(models/unis.py lines 162-189): a duplicate-key insert error reports
status 409 and otherwise 500; the numeric code distinguishes a rollback
that succeeded (409001 or 500001) from one that failed (409002 or
500002). -/
def insert_resource_error (insertError : String)
    (removeError : Option String) : ErrEnvelope :=
  let dup := substrIn "duplicate key".toList insertError.toList
  let status := if dup then 409 else 500
  let code :=
    match removeError with
    | none => if status = 409 then 409001 else 500001
    | some _ => if status = 409 then 409002 else 500002
  ⟨status, code⟩

/-- Embedding of the insert path of insert_resource (models/unis.py
lines 151-189): insert the whole batch; on success report the result
with no error, and on failure issue the compensating rollback remove
over the batch and report the classified error.  The removeFails flag
models the backing store failing the rollback remove, in which case the
store is left as the failed insert left it. -/
def insert_resource (store : List FlatDoc) (batch : List FlatDoc)
    (removeFails : Bool) : List FlatDoc × Option ErrEnvelope :=
  match mongo_insert_seq store batch with
  | (store2, none) => (store2, none)
  | (store2, some err) =>
    if removeFails then
      (store2, some (insert_resource_error err (some "remove failed")))
    else
      (rollback_remove store2 batch, some (insert_resource_error err none))

/-! ## Store-layer insert with id and timestamp assignment

Embedding of IncompleteMongoDBLayer insert, insert id assignment and
insert callback (db.py lines 438-484).  The wall clock and the
ObjectId generator are explicit parameters: now stands for
int(time.time() * 1000000) and supply k for the ObjectId string of the
k-th generated id. -/

/-- Embedding of the id assignment utility (db.py lines 438-454): give
the document the current time as its timestamp when it lacks one, a
fresh ObjectId when it lacks one, and the string of its ObjectId as its
identifier when it lacks one; the assigned ObjectId is returned. -/
def insert_id_assign (tsField idField : String) (now : Int)
    (fresh : String) (d : FlatDoc) : FlatDoc × Prim :=
  let d1 := if lookupF tsField d = none then d ++ [(tsField, .i now)] else d
  let d2 := if lookupF "_id" d1 = none then d1 ++ [("_id", .s fresh)] else d1
  let d3 :=
    if lookupF idField d2 = none then
      d2 ++ [(idField, match lookupF "_id" d2 with
        | some (.s s) => .s s
        | some (.i n) => .s (toString n)
        | some (.b v) => .s (toString v)
        | _ => .s "None")]
    else d2
  (d3, (lookupF "_id" d2).getD .null)

/-- The shape of the object ids handed back to the caller: a scalar for
a single-document insert, a list for a list insert. -/
inductive IdShape where
  | one (v : Prim)
  | many (vs : List Prim)
deriving DecidableEq, Repr

/-- Embedding of the insert callback (db.py lines 456-467): on a
backend error the user callback fires once with no result and the
error, and then control falls through (the early branch does not
return) so the callback fires a second time with the shaped object ids
and the same error; on success it fires exactly once.  The list of
invocations is returned in order. -/
def insert_callback (error : Option String) (objectIds : List Prim)
    (isList : Bool) : List (Option IdShape × Option String) :=
  let shaped : IdShape :=
    if isList then .many objectIds else .one (objectIds.headD .null)
  match error with
  | some e => [(none, some e), (some shaped, some e)]
  | none => [(some shaped, none)]

/-- Id assignment over a batch (db.py line 480): each document of the
batch is completed in order, drawing the k-th fresh ObjectId for the
k-th document. -/
def assign_ids (tsField idField : String) (now : Int)
    (supply : Nat → String) (ldata : List FlatDoc) :
    List (FlatDoc × Prim) :=
  ldata.enum.map (fun p => insert_id_assign tsField idField now (supply p.1) p.2)

/-- Embedding of the insert entry point (db.py lines 469-484) for input
data of either shape: complete the documents, run the backend insert
(abstracted by whether it reports an error), and return the completed
documents together with the ordered callback invocations. -/
def dblayer_insert (tsField idField : String) (now : Int)
    (supply : Nat → String) (data : List FlatDoc) (isList : Bool)
    (backendError : Option String) :
    List FlatDoc × List (Option IdShape × Option String) :=
  let completed := assign_ids tsField idField now supply data
  (completed.map Prod.fst,
   insert_callback backendError (completed.map Prod.snd) isList)

/-! ## Handler initialization

Embedding of NetworkResourceHandler.initialize
(networkresource_handler.py lines 33-91). -/

/-- The MIME names involved in the schema aliasing step. -/
def MIME_JSON : String := "application/json"

/-- The perfSONAR JSON MIME name. -/
def MIME_PSJSON : String := "application/perfsonar+json"

/-- The handler state captured by initialize. -/
structure HandlerCfg where
  idField : String
  tsField : String
  schemasSingle : Option (List (String × String))
  allowGet : Bool
  allowPost : Bool
  allowPut : Bool
  allowDelete : Bool
  tailable : Bool
deriving DecidableEq, Repr

/-- String-map lookup used for the schema dictionaries. -/
def lookupS (k : String) (m : List (String × String)) : Option String :=
  match m with
  | [] => none
  | (k2, v) :: rest => if k2 = k then some v else lookupS k rest

/-- Embedding of initialize: record the arguments, alias the plain JSON
schema to the perfSONAR JSON schema when only the latter is present,
and raise ValueError when the collection is capped and delete is
allowed.  The ValueError aborts handler construction, modelled as the
error branch. -/
def init_handler (idField tsField : String)
    (schemasSingle : Option (List (String × String)))
    (allowGet allowPost allowPut allowDelete tailable : Bool) :
    Except String HandlerCfg :=
  let schemas2 :=
    match schemasSingle with
    | none => none
    | some m =>
      if lookupS MIME_JSON m = none ∧ (lookupS MIME_PSJSON m).isSome then
        some (m ++ [(MIME_JSON, (lookupS MIME_PSJSON m).getD "")])
      else some m
  if tailable ∧ allowDelete then
    .error "Capped collections do not supportdelete operation"
  else
    .ok ⟨idField, tsField, schemas2, allowGet, allowPost, allowPut,
      allowDelete, tailable⟩

/-! ## Tailing cursor

Embedding of AsyncmongoDBCursor.each, AsyncmongoDBCursor.tail and the
tail callback (db.py lines 269-334).  The asyncmongo native cursor is
an external collaborator; only the contract the spec states for it is
modelled: killing the cursor is terminal, so after a kill its liveness
flag is false (spec sections 4.1 and 6).  Asynchronous steps
(invoking the find, fetching more, arming the reconnect timer) are
recorded as events rather than executed, so one run below is one
synchronous slice of the callback machinery. -/

/-- Adapter cursor state: the has-results flag, the buffered documents
(the buffer is only read, never consumed, by each), the stored error,
the native liveness flag, and the tailing keywords of the stored find
call. -/
structure TCursor where
  hasResults : Bool
  buffer : List FlatDoc
  errState : Option String
  alive : Bool
  tailableFlag : Bool
  awaitDataFlag : Bool
deriving DecidableEq, Repr

/-- Observable actions of one synchronous slice of the tail machinery. -/
inductive TEvent where
  | invokeFind (tailable awaitData : Bool)
  | getMore
  | deliver (d : FlatDoc)
  | deliverErr (e : String)
  | killCursor
  | scheduleTail (delayMs : Nat)
deriving DecidableEq, Repr

/-- Embedding of the tail callback (db.py lines 321-334).  The user
callback is modelled by a boolean function: true stands for a non-None
return (keep going), false for returning None (stop).  The result
triple carries the events, the cursor state, and the Python return
value of the callback: none for None, some false for the explicit
False return of the stop branch.  On an error the native cursor is
killed and the error delivered; the stop branch kills the cursor and
returns before the liveness check; every other path falls through to
the liveness check, which arms a 500 ms timer re-invoking tail when the
native cursor is no longer alive. -/
def tail_got_more (userCb : FlatDoc → Bool) (s : TCursor)
    (result : Option FlatDoc) (error : Option String) :
    List TEvent × TCursor × Option Bool :=
  match error with
  | some e =>
    ([.killCursor, .deliverErr e, .scheduleTail 500],
     { s with alive := false }, none)
  | none =>
    match result with
    | some d =>
      if userCb d then
        if s.alive then ([.deliver d], s, none)
        else ([.deliver d, .scheduleTail 500], s, none)
      else
        ([.deliver d, .killCursor], { s with alive := false }, some false)
    | none =>
      if s.alive then ([], s, none)
      else ([.scheduleTail 500], s, none)

/-- The buffer loop of each (db.py lines 277-280) as driven by tail:
each buffered document is handed to the tail callback together with the
stored error; the loop returns early exactly when the callback returns
None.  The third component reports that early return. -/
def each_loop (userCb : FlatDoc → Bool) (errState : Option String) :
    List FlatDoc → TCursor → List TEvent × TCursor × Bool
  | [], s => ([], s, false)
  | d :: rest, s =>
    let t := tail_got_more userCb s (some d) errState
    match t.2.2 with
    | none => (t.1, t.2.1, true)
    | some _ =>
      let r := each_loop userCb errState rest t.2.1
      (t.1 ++ r.1, r.2.1, r.2.2)

/-- Embedding of each (db.py lines 269-284) as invoked from tail: when
no find has completed yet, set the await-data keyword and invoke the
find (asynchronously; recorded as an event); otherwise run the buffer
loop, and unless it returned early, either fetch more (empty buffer,
live cursor) or invoke the callback with no document and no error. -/
def each_tail (userCb : FlatDoc → Bool) (s : TCursor) :
    List TEvent × TCursor :=
  if s.hasResults = false then
    let s2 := { s with awaitDataFlag := true }
    ([.invokeFind s2.tailableFlag true], s2)
  else
    let r := each_loop userCb s.errState s.buffer s
    if r.2.2 then (r.1, r.2.1)
    else if s.buffer = [] ∧ r.2.1.alive then (r.1 ++ [.getMore], r.2.1)
    else
      let t := tail_got_more userCb r.2.1 none none
      (r.1 ++ t.1, t.2.1)

/-- Embedding of tail (db.py lines 310-319): set the tailable and
await-data keywords on the stored find call and drive each with the
tail callback. -/
def tail_run (userCb : FlatDoc → Bool) (s : TCursor) :
    List TEvent × TCursor :=
  each_tail userCb { s with tailableFlag := true, awaitDataFlag := true }

/-! ## Helper lemmas -/

theorem lookupF_append (k : String) (d e : FlatDoc) :
    lookupF k (d ++ e) =
      match lookupF k d with
      | some v => some v
      | none => lookupF k e := by
  induction d with
  | nil => simp [lookupF]
  | cons kv rest ih =>
    obtain ⟨k2, v⟩ := kv
    by_cases h : k2 = k <;> simp [lookupF, h, ih]

theorem pySplit_ne_nil (sep : Char) (s : Chars) : pySplit sep s ≠ [] := by
  induction s with
  | nil => simp [pySplit]
  | cons c cs ih =>
    simp only [pySplit]
    by_cases h : c = sep
    · simp [h]
    · simp only [h, if_neg, if_false]
      cases hr : pySplit sep cs with
      | nil => exact absurd hr ih
      | cons t ts => simp

theorem pySplit_not_mem (sep : Char) (s : Chars) (h : sep ∉ s) :
    pySplit sep s = [s] := by
  induction s with
  | nil => simp [pySplit]
  | cons c cs ih =>
    simp only [List.mem_cons, not_or] at h
    have hc : c ≠ sep := fun he => h.1 he.symm
    simp only [pySplit, hc, if_false]
    rw [ih h.2]

theorem pySplit_mem_length (sep : Char) (s : Chars) (h : sep ∈ s) :
    (pySplit sep s).length > 1 := by
  induction s with
  | nil => simp at h
  | cons c cs ih =>
    simp only [pySplit]
    by_cases hc : c = sep
    · simp only [hc, if_true]
      have := pySplit_ne_nil sep cs
      cases hr : pySplit sep cs with
      | nil => exact absurd hr this
      | cons t ts => simp
    · have hcs : sep ∈ cs := by
        rcases List.mem_cons.mp h with h1 | h1
        · exact absurd h1.symm hc
        · exact h1
      simp only [hc, if_false]
      cases hr : pySplit sep cs with
      | nil => exact absurd hr (pySplit_ne_nil sep cs)
      | cons t ts =>
        have := ih hcs
        rw [hr] at this
        simpa using this

theorem firstDedupAux_subset {α : Type} [DecidableEq α] (seen : List α)
    (l : List α) (a : α) (h : a ∈ firstDedupAux seen l) : a ∈ l := by
  induction l generalizing seen with
  | nil => simp [firstDedupAux] at h
  | cons x xs ih =>
    simp only [firstDedupAux] at h
    by_cases hx : x ∈ seen
    · simp only [hx, if_true] at h
      exact List.mem_cons_of_mem x (ih seen h)
    · simp only [hx, if_false, List.mem_cons] at h
      rcases h with h | h
      · exact h ▸ List.mem_cons_self x xs
      · exact List.mem_cons_of_mem x (ih (x :: seen) h)

theorem firstDedup_subset {α : Type} [DecidableEq α] (l : List α) (a : α)
    (h : a ∈ firstDedup l) : a ∈ l :=
  firstDedupAux_subset [] l a h

theorem lookupF_group_key_id (d : FlatDoc) :
    lookupF "id" (group_key "id" d) = none := by
  unfold group_key
  cases h1 : lookupF "id" d <;> cases h2 : lookupF "selfRef" d <;>
    simp [lookupF]

theorem group_stage_mem (tsField : String) (docs : List FlatDoc)
    (g : ADoc) (h : g ∈ group_stage "id" tsField docs) :
    ∃ d ∈ docs, g = [("_id", AVal.sub (group_key "id" d)),
      (tsField, AVal.p (max_ts "id" tsField (group_key "id" d) docs))] := by
  unfold group_stage at h
  rcases List.mem_map.mp h with ⟨k, hk, hg⟩
  rcases List.mem_map.mp (firstDedup_subset _ _ hk) with ⟨d, hd, hkd⟩
  exact ⟨d, hd, by rw [← hg, ← hkd]⟩

theorem resolve_set_no_id (docs : List FlatDoc) (p : FlatDoc → Bool)
    (e : ADoc) (h : e ∈ resolve_set "id" "ts" docs p) :
    lookupA "id" e = none := by
  simp only [resolve_set] at h
  split at h
  · simp at h
  · simp only [aggregate_set] at h
    split at h
    · simp at h
    · rcases List.mem_map.mp (firstDedup_subset _ _ h) with ⟨q, hq, hqe⟩
      rcases List.mem_map.mp hq with ⟨g, hg, hgq⟩
      rcases group_stage_mem "ts" (docs.filter p) g hg with ⟨d, _, hgd⟩
      subst hgd hgq hqe
      simp [project_stage, set_element, eval_path2, lookupA,
        lookupF_group_key_id d]

theorem intersperse_cons_flatten (sep a : String) (l : List String) :
    List.intersperse sep (a :: l) =
      a :: (l.map (fun x => [sep, x])).flatten := by
  induction l generalizing a with
  | nil => simp
  | cons b bs ih => simp [List.intersperse, ih b]

theorem write_loop_list_notfirst (render : FlatDoc → String) (s : Nat)
    (sl : Bool) (docs : List FlatDoc) (st : WState) (fo : Bool) :
    write_psjson_loop render s true false sl docs false fo st =
      (⟨st.writes ++
          ((docs.filter (fun d => !isDeletedDoc d)).map
            (fun d => [",\n", render d])).flatten,
        st.status⟩,
       fo || !docs.isEmpty) := by
  induction docs generalizing st fo with
  | nil => simp [write_psjson_loop]
  | cons d rest ih =>
    by_cases hd : isDeletedDoc d
    · simp [write_psjson_loop, hd, ih]
    · simp [write_psjson_loop, hd, ih]

theorem write_loop_list_first (render : FlatDoc → String) (s : Nat)
    (sl : Bool) (docs : List FlatDoc) (st : WState) (fo : Bool) :
    write_psjson_loop render s true false sl docs true fo st =
      (⟨st.writes ++
          List.intersperse ",\n"
            ((docs.filter (fun d => !isDeletedDoc d)).map render),
        if (docs.filter (fun d => !isDeletedDoc d)).isEmpty then st.status
        else s⟩,
       fo || !docs.isEmpty) := by
  induction docs generalizing st fo with
  | nil => simp [write_psjson_loop]
  | cons d rest ih =>
    by_cases hd : isDeletedDoc d
    · simp [write_psjson_loop, hd, ih]
    · simp [write_psjson_loop, hd, write_loop_list_notfirst,
        intersperse_cons_flatten, Function.comp_def]

theorem mongo_insert_seq_preserves (l : List FlatDoc) (s s2 : List FlatDoc)
    (e : Option String) (h : mongo_insert_seq s l = (s2, e)) :
    ∀ x ∈ s, x ∈ s2 := by
  induction l generalizing s with
  | nil =>
    simp only [mongo_insert_seq] at h
    injection h with h1 h2
    subst h1
    exact fun x hx => hx
  | cons d rest ih =>
    simp only [mongo_insert_seq] at h
    split at h
    · injection h with h1 h2
      subst h1
      exact fun x hx => hx
    · intro x hx
      exact ih (s ++ [d]) h x (List.mem_append_left _ hx)

theorem mongo_insert_seq_ok_mem (l : List FlatDoc) (s s2 : List FlatDoc)
    (h : mongo_insert_seq s l = (s2, none)) : ∀ d ∈ l, d ∈ s2 := by
  induction l generalizing s with
  | nil => simp
  | cons d rest ih =>
    simp only [mongo_insert_seq] at h
    split at h
    · simp at h
    · intro x hx
      rcases List.mem_cons.mp hx with hx | hx
      · subst hx
        exact mongo_insert_seq_preserves rest (s ++ [x]) s2 none h x
          (List.mem_append_right s (List.mem_singleton_self x))
      · exact ih (s ++ [d]) h x hx

theorem mongo_insert_seq_err (l : List FlatDoc) (s s2 : List FlatDoc)
    (e : String) (h : mongo_insert_seq s l = (s2, some e)) :
    e = "E11000 duplicate key error index id_1_ts_-1" := by
  induction l generalizing s with
  | nil => simp [mongo_insert_seq] at h
  | cons d rest ih =>
    simp only [mongo_insert_seq] at h
    split at h
    · injection h with h1 h2
      injection h2 with h3
      exact h3.symm
    · exact ih (s ++ [d]) h

/-! ## Claim theorems -/

/-- C1: the spec claims the resolver groups revisions by identifier with
the maximum timestamp and collects (identifier, timestamp) pairs into one
set, answering 404 for an empty set on a single-resource request and an
empty listing otherwise.  The code violates the pair part: the
projection stage reads the path _id.id while the group stage stored the
identifier under the inner key _id, so every member of the collected set
lacks the identifier field (first conjunct, for every store and base
filter), the set for a one-revision store is the timestamp-only document
(second conjunct), and the resulting timestamp-only disjunction returns
revisions of OTHER identifiers, as the third conjunct shows on a listing
filtered to identifier a that also yields the revision of identifier b.
The 404 and empty-listing parts behave as claimed (last two
conjuncts). -/
theorem c1_resolver_set_lacks_identifier :
    (∀ (store : List FlatDoc) (p : FlatDoc → Bool),
      (resolve_set "id" "ts" store p).all
        (fun e => (lookupA "id" e).isNone) = true) ∧
    resolve_set "id" "ts"
      [[("id", .s "a"), ("selfRef", .s "ra"), ("ts", .i 5)]]
      (fun _ => true) = [[("ts", AVal.p (.i 5))]] ∧
    (∀ render : FlatDoc → String,
      get_psjson render
        [[("id", .s "a"), ("selfRef", .s "ra"), ("ts", .i 5)],
         [("id", .s "b"), ("selfRef", .s "rb"), ("ts", .i 5)]]
        (fun d => lookupF "id" d == some (.s "a")) true =
      (200,
       ["[\n", render [("id", .s "a"), ("selfRef", .s "ra"), ("ts", .i 5)],
        ",\n", render [("id", .s "b"), ("selfRef", .s "rb"), ("ts", .i 5)],
        "\n]\n", "\n"])) ∧
    (∀ render : FlatDoc → String,
      get_psjson render [] (fun _ => true) false = (404, [])) ∧
    (∀ render : FlatDoc → String,
      get_psjson render [] (fun _ => true) true =
        (200, ["[\n", "\n]\n", "\n"])) := by
  refine ⟨?_, by rfl, fun render => by rfl, fun render => by rfl,
    fun render => by rfl⟩
  intro store p
  rw [List.all_eq_true]
  intro e he
  rw [resolve_set_no_id store p e he]
  rfl

/-- C2: the spec claims a DELETE whose target's latest revision is
already DELETED answers 410 and writes nothing.  The handler instead
inspects the FIRST revision returned by an unsorted find (the code
carries a TODO admitting the latest element is not fetched): on a store
whose latest revision of a is the DELETED revision at timestamp 2
(first conjunct) the handler reads the ACTIVE revision at timestamp 1,
answers 200, and appends a second tombstone at the current time (second
conjunct), so the status is not 410 and the stored revision set grows
(last two conjuncts). -/
theorem c2_double_delete_checks_first_revision :
    latestRevision
      [[("id", .s "a"), ("ts", .i 1), ("status", .s "ACTIVE")],
       [("id", .s "a"), ("ts", .i 2), ("status", .s "DELETED")]] "a" =
      some [("id", .s "a"), ("ts", .i 2), ("status", .s "DELETED")] ∧
    delete_handler
      [[("id", .s "a"), ("ts", .i 1), ("status", .s "ACTIVE")],
       [("id", .s "a"), ("ts", .i 2), ("status", .s "DELETED")]] "a" 3 =
      ⟨200, 0,
       [[("id", .s "a"), ("ts", .i 1), ("status", .s "ACTIVE")],
        [("id", .s "a"), ("ts", .i 2), ("status", .s "DELETED")],
        [("id", .s "a"), ("status", .s "DELETED"), ("ts", .i 3)]]⟩ ∧
    ((delete_handler
      [[("id", .s "a"), ("ts", .i 1), ("status", .s "ACTIVE")],
       [("id", .s "a"), ("ts", .i 2), ("status", .s "DELETED")]] "a" 3).status
      == 410) = false ∧
    ((delete_handler
      [[("id", .s "a"), ("ts", .i 1), ("status", .s "ACTIVE")],
       [("id", .s "a"), ("ts", .i 2), ("status", .s "DELETED")]] "a" 3).store
      == [[("id", .s "a"), ("ts", .i 1), ("status", .s "ACTIVE")],
          [("id", .s "a"), ("ts", .i 2), ("status", .s "DELETED")]]) =
      false := by
  refine ⟨by rfl, by rfl, by decide, by decide⟩

/-- C4 counterexample: the claim states that EVERY raw value containing
a comma compiles to a set-membership predicate, but the compiler splits
on the pipe character first, so the value 1,2|num=3 for parameter num
compiles to a disjunction document, not to a single-field
set-membership document. -/
theorem c4_counterexample_pipe_beats_comma :
    compile_arg_value "num".toList "1,2|num=3".toList =
      .ok (.orq
        [⟨"num".toList, .inq [.prim (.qs "1".toList), .prim (.qs "2".toList)]⟩,
         ⟨"num".toList, .base (.prim (.qs "3".toList))⟩]) ∧
    (compile_arg_value "num".toList "1,2|num=3".toList).map
      isSingleClause = .ok false := by
  exact ⟨by rfl, by rfl⟩

/-- C4 amended: a raw value that contains a comma and NO pipe character
compiles to the set-membership document of process_in_query over the
per-token-converted comma alternatives (pipe-containing values go to
the OR rule first); since num is not a numeric-coerced field, the
tokens of num=1,2,3 convert to strings and the parameter compiles to
the IN predicate over them. -/
theorem c4_comma_only_value_compiles_to_in (key value : Chars)
    (hc : ',' ∈ value) (hp : '|' ∉ value) :
    compile_arg_value key value =
      (process_in_query key (pySplit ',' value)).map .single ∧
    process_in_query key (pySplit ',' value) =
      ((pySplit ',' value).mapM
        (fun t => process_value_nc key (t.length + 1) t)).map
        (fun vs => QAtom.mk key (.inq vs)) ∧
    compile_arg_value "num".toList "1,2,3".toList =
      .ok (.single ⟨"num".toList,
        .inq [.prim (.qs "1".toList), .prim (.qs "2".toList),
              .prim (.qs "3".toList)]⟩) := by
  refine ⟨?_, by rfl, by rfl⟩
  unfold compile_arg_value
  rw [pySplit_not_mem '|' value hp]
  rw [if_neg (by simp)]
  rw [if_pos (pySplit_mem_length ',' value hc)]

/-- C5: the spec claims a value prefixed with a range operator compiles
to that operator applied to the type-converted remainder.  The code
strips the prefix with Python lstrip, which removes the leading
CHARACTER SET of the operator, so gt=test on a plain string field
yields the operator applied to est (first conjunct) and not to the
remainder test (second conjunct); the specific example ts=gte=100,
whose remainder starts with a digit outside the stripped set, does
yield the claimed numeric GTE(100) predicate (third conjunct). -/
theorem c5_range_operator_strips_character_set :
    process_value "name".toList "gt=test".toList =
      .ok (.base (.range "$gt" (.prim (.qs "est".toList)))) ∧
    (process_value "name".toList "gt=test".toList ==
      .ok (.base (.range "$gt" (.prim (.qs "test".toList))))) = false ∧
    process_value "ts".toList "gte=100".toList =
      .ok (.base (.range "$gte" (.prim (.qn 100)))) := by
  refine ⟨by rfl, by rfl, by rfl⟩

/-- C7: the spec claims a dead backing cursor triggers, after 500 ms, a
reissue of the original find with tailing flags with delivery resuming,
and that only a stop signal from the callback terminates the tail with
no resubscription scheduled.  The machinery diverges on all three
counts: a subscriber that stops on a one-document buffer still gets a
500 ms resubscription scheduled, because the stop branch returns False
and the buffer loop only halts on None, so the trailing no-data call
runs against the freshly killed cursor (first conjunct); a subscriber
that keeps going is never handed the second buffered document and no
further fetch or timer is produced, because the continue branch returns
None which halts the buffer loop (second conjunct); and a tail rerun
against a dead cursor that has already produced results only reschedules
itself without ever reissuing the find, since the find is only invoked
while the has-results flag is still false (third conjunct). -/
theorem c7_tail_machinery_diverges :
    tail_run (fun _ => false)
      ⟨true, [[("id", .s "x1")]], none, true, true, true⟩ =
      ([.deliver [("id", .s "x1")], .killCursor, .scheduleTail 500],
       ⟨true, [[("id", .s "x1")]], none, false, true, true⟩) ∧
    tail_run (fun _ => true)
      ⟨true, [[("id", .s "x1")], [("id", .s "x2")]], none, true, true, true⟩ =
      ([.deliver [("id", .s "x1")]],
       ⟨true, [[("id", .s "x1")], [("id", .s "x2")]], none, true, true,
        true⟩) ∧
    tail_run (fun _ => true) ⟨true, [], none, false, true, true⟩ =
      ([.scheduleTail 500], ⟨true, [], none, false, true, true⟩) := by
  exact ⟨rfl, rfl, rfl⟩

/-- C6: in list mode write_psjson emits the opening delimiter, then the
delivered (non-deleted) documents separated by the separator, which
appears before every document except the first and after none, then the
closing delimiter; the status is the success status whenever the cursor
is empty or at least one document is delivered (an all-deleted nonempty
cursor leaves the framework default 200). -/
theorem c6_list_mode_protocol (render : FlatDoc → String)
    (successStatus : Nat) (docs : List FlatDoc) :
    (write_psjson render successStatus true false false docs).writes =
      ["[\n"] ++
        List.intersperse ",\n"
          ((docs.filter (fun d => !isDeletedDoc d)).map render) ++
        ["\n]\n", "\n"] ∧
    (write_psjson render successStatus true false false docs).status =
      (if docs.isEmpty then successStatus
       else if (docs.filter (fun d => !isDeletedDoc d)).isEmpty then 200
       else successStatus) := by
  simp only [write_psjson, write_loop_list_first]
  by_cases hd : docs = []
  · subst hd
    simp
  · simp only [List.isEmpty_eq_true, hd, Bool.false_or, if_false]
    by_cases hf : (docs.filter (fun d => !isDeletedDoc d)).isEmpty
    · simp [hf, List.isEmpty_iff.mp hf, hd]
    · simp [hf, hd]

/-- C3: when the batch insert fails, the error reported carries HTTP
status 409 (every insert failure in this store is a duplicate-key
unique-index violation) and the numeric code is 409001 when the
compensating remove succeeded and 409002 when it failed (first
conjunct); after a failed insert with a successful rollback no document
matching any (identifier, timestamp) pair of the batch remains in the
store, so the batch is fully retracted (second conjunct); and a
successful insert lands every document of the batch (third
conjunct). -/
theorem c3_conflict_rollback (store batch store2 : List FlatDoc)
    (env : ErrEnvelope) (rf : Bool) :
    ((insert_resource store batch rf).2 = some env →
      env.status_code = 409 ∧ env.code = (if rf then 409002 else 409001)) ∧
    (insert_resource store batch false = (store2, some env) →
      store2.filter (fun e => batch.any (fun r => samePair r e)) = []) ∧
    (insert_resource store batch rf = (store2, none) →
      ∀ d ∈ batch, d ∈ store2) := by
  refine ⟨?_, ?_, ?_⟩
  · intro h
    unfold insert_resource at h
    rcases hm : mongo_insert_seq store batch with ⟨s2, e⟩
    rw [hm] at h
    cases e with
    | none => simp at h
    | some err =>
      have herr := mongo_insert_seq_err batch store s2 err hm
      subst herr
      cases rf with
      | false =>
        injection h with h1
        subst h1
        exact ⟨by decide, by decide⟩
      | true =>
        injection h with h1
        subst h1
        exact ⟨by decide, by decide⟩
  · intro h
    unfold insert_resource at h
    rcases hm : mongo_insert_seq store batch with ⟨s2, e⟩
    rw [hm] at h
    cases e with
    | none =>
      injection h with h1 h2
      exact Option.noConfusion h2
    | some err =>
      injection h with h1 h2
      rw [← h1]
      unfold rollback_remove
      rw [List.filter_filter]
      have hfalse : ∀ e2 : FlatDoc,
          (batch.any (fun r => samePair r e2) &&
            !batch.any (fun r => samePair r e2)) = false := by
        intro e2
        exact Bool.and_not_self _
      simp only [hfalse]
      exact List.filter_false s2
  · intro h
    unfold insert_resource at h
    rcases hm : mongo_insert_seq store batch with ⟨s2, e⟩
    rw [hm] at h
    cases e with
    | none =>
      injection h with h1 h2
      rw [← h1]
      exact mongo_insert_seq_ok_mem batch store s2 hm
    | some err =>
      cases rf with
      | false =>
        injection h with h1 h2
        exact Option.noConfusion h2
      | true =>
        injection h with h1 h2
        exact Option.noConfusion h2

/-- C8: the store-layer insert completes every input document in input
order, drawing the k-th fresh ObjectId for the k-th document (first two
conjuncts); a document lacking a timestamp receives the current
microsecond time while an existing timestamp is preserved (third and
fourth conjuncts); a document lacking an ObjectId receives the freshly
generated one, which is also returned, while an existing ObjectId is
returned unchanged (fifth and sixth conjuncts); a document lacking the
identifier field receives the string of its fresh ObjectId (seventh
conjunct); and the completion callback receives the assigned ids in the
same order and shape as the input, a positionally matching list for a
list insert and a scalar for a single-document insert (last two
conjuncts). -/
theorem c8_insert_assigns_and_correlates (now : Int)
    (supply : Nat → String) (data : List FlatDoc) (d : FlatDoc)
    (k : Nat) :
    (assign_ids "ts" "id" now supply data).length = data.length ∧
    (∀ i (h : i < data.length)
        (h2 : i < (assign_ids "ts" "id" now supply data).length),
      (assign_ids "ts" "id" now supply data).get ⟨i, h2⟩ =
        insert_id_assign "ts" "id" now (supply i) (data.get ⟨i, h⟩)) ∧
    (lookupF "ts" d = none →
      lookupF "ts" (insert_id_assign "ts" "id" now (supply k) d).1 =
        some (.i now)) ∧
    (∀ v, lookupF "ts" d = some v →
      lookupF "ts" (insert_id_assign "ts" "id" now (supply k) d).1 =
        some v) ∧
    (lookupF "_id" d = none →
      (insert_id_assign "ts" "id" now (supply k) d).2 = .s (supply k)) ∧
    (∀ v, lookupF "_id" d = some v →
      (insert_id_assign "ts" "id" now (supply k) d).2 = v) ∧
    (lookupF "id" d = none → lookupF "_id" d = none →
      lookupF "id" (insert_id_assign "ts" "id" now (supply k) d).1 =
        some (.s (supply k))) ∧
    (dblayer_insert "ts" "id" now supply data true none).2 =
      [(some (.many ((assign_ids "ts" "id" now supply data).map Prod.snd)),
        none)] ∧
    (dblayer_insert "ts" "id" now supply [d] false none).2 =
      [(some (.one (insert_id_assign "ts" "id" now (supply 0) d).2),
        none)] := by
  refine ⟨by simp [assign_ids], ?_, ?_, ?_, ?_, ?_, ?_, by rfl, by rfl⟩
  · intro i h h2
    simp [assign_ids, List.getElem_enum]
  · intro hts
    rcases hid : lookupF "_id" d with _ | v1 <;>
      rcases hid2 : lookupF "id" d with _ | v2 <;>
        simp_all [insert_id_assign, lookupF_append, lookupF]
  · intro v hts
    rcases hid : lookupF "_id" d with _ | v1 <;>
      rcases hid2 : lookupF "id" d with _ | v2 <;>
        simp_all [insert_id_assign, lookupF_append, lookupF]
  · intro hid
    rcases hts : lookupF "ts" d with _ | v1 <;>
      rcases hid2 : lookupF "id" d with _ | v2 <;>
        simp_all [insert_id_assign, lookupF_append, lookupF]
  · intro v hid
    rcases hts : lookupF "ts" d with _ | v1 <;>
      rcases hid2 : lookupF "id" d with _ | v2 <;>
        simp_all [insert_id_assign, lookupF_append, lookupF]
  · intro hid2 hid
    rcases hts : lookupF "ts" d with _ | v1 <;>
      simp_all [insert_id_assign, lookupF_append, lookupF]

/-- C9: on a backend insert error the store-layer completion callback
fires twice, first with no result and the error and then with the
shaped object ids and the same error, because the error branch does not
return; on success it fires exactly once with the shaped ids and no
error. -/
theorem c9_error_double_callback (e : String) (ids : List Prim) :
    insert_callback (some e) ids true =
      [(none, some e), (some (.many ids), some e)] ∧
    insert_callback (some e) ids false =
      [(none, some e), (some (.one (ids.headD .null)), some e)] ∧
    insert_callback none ids true = [(some (.many ids), none)] ∧
    insert_callback none ids false =
      [(some (.one (ids.headD .null)), none)] ∧
    (insert_callback (some e) ids true).length = 2 ∧
    (insert_callback none ids true).length = 1 :=
  ⟨rfl, rfl, rfl, rfl, rfl, rfl⟩

/-- C10: initialize succeeds exactly when the collection is not both
capped and delete-enabled (first conjunct), raises the ValueError with
tailable and delete both allowed (second conjunct), and every
successfully constructed handler records the tailable and delete flags
it was given, so no constructed handler combines a capped collection
with an enabled delete operation (third conjunct). -/
theorem c10_capped_delete_rejected (idF tsF : String)
    (schemas : Option (List (String × String)))
    (g p u d t : Bool) :
    (init_handler idF tsF schemas g p u d t).isOk = !(t && d) ∧
    init_handler idF tsF schemas g p u true true =
      .error "Capped collections do not supportdelete operation" ∧
    (∀ cfg, init_handler idF tsF schemas g p u d t = .ok cfg →
      cfg.tailable = t ∧ cfg.allowDelete = d) := by
  refine ⟨?_, ?_, ?_⟩
  · cases t <;> cases d <;> simp [init_handler, Except.isOk, Except.toBool]
  · simp [init_handler]
  · intro cfg h
    simp only [init_handler] at h
    by_cases htd : t = true ∧ d = true
    · rw [if_pos htd] at h
      exact Except.noConfusion h
    · rw [if_neg htd] at h
      injection h with h1
      rw [← h1]
      exact ⟨rfl, rfl⟩

/-- Witness for C3 at the batch of the spec test property: a
three-document batch whose third document collides with a stored
revision fails the insert, the rollback retracts every batch pair, and
the envelope carries status 409 with code 409001. -/
theorem c3_conflict_rollback_witness :
    ((⟨409, 409001⟩ : ErrEnvelope).status_code = 409 ∧
      (⟨409, 409001⟩ : ErrEnvelope).code =
        (if false then 409002 else 409001)) ∧
    (([] : List FlatDoc).filter
      (fun e =>
        [[("id", Prim.s "r1"), ("ts", Prim.i 10)],
         [("id", Prim.s "r2"), ("ts", Prim.i 10)],
         [("id", Prim.s "old"), ("ts", Prim.i 5)]].any
          (fun r => samePair r e)) = []) := by
  have h := c3_conflict_rollback
    [[("id", Prim.s "old"), ("ts", Prim.i 5)]]
    [[("id", Prim.s "r1"), ("ts", Prim.i 10)],
     [("id", Prim.s "r2"), ("ts", Prim.i 10)],
     [("id", Prim.s "old"), ("ts", Prim.i 5)]]
    [] ⟨409, 409001⟩ false
  exact ⟨h.1 (by rfl), h.2.1 (by rfl)⟩

/-- Witness for the amended C4 at the parameter num with raw value
1,2,3, which contains a comma and no pipe. -/
theorem c4_comma_only_witness :
    compile_arg_value "num".toList "1,2,3".toList =
      (process_in_query "num".toList (pySplit ',' "1,2,3".toList)).map
        .single :=
  (c4_comma_only_value_compiles_to_in "num".toList "1,2,3".toList
    (by decide) (by decide)).1

/-- Witness for C8 at two concrete documents: one lacking both the
timestamp and the ObjectId, which receives the current time, the fresh
ObjectId and its string as identifier, and one carrying both, which
keeps them. -/
theorem c8_insert_witness :
    (assign_ids "ts" "id" 7 (fun _ => "oid") [[("x", Prim.i 1)]]).length
      = 1 ∧
    (assign_ids "ts" "id" 7 (fun _ => "oid")
        [[("x", Prim.i 1)]]).get ⟨0, by decide⟩ =
      insert_id_assign "ts" "id" 7 "oid" [("x", Prim.i 1)] ∧
    lookupF "ts" (insert_id_assign "ts" "id" 7 "oid"
      [("x", Prim.i 1)]).1 = some (.i 7) ∧
    (insert_id_assign "ts" "id" 7 "oid" [("x", Prim.i 1)]).2 =
      .s "oid" ∧
    lookupF "id" (insert_id_assign "ts" "id" 7 "oid"
      [("x", Prim.i 1)]).1 = some (.s "oid") ∧
    lookupF "ts" (insert_id_assign "ts" "id" 7 "oid"
      [("ts", Prim.i 5), ("_id", Prim.s "Z")]).1 = some (.i 5) ∧
    (insert_id_assign "ts" "id" 7 "oid"
      [("ts", Prim.i 5), ("_id", Prim.s "Z")]).2 = .s "Z" := by
  have h := c8_insert_assigns_and_correlates 7 (fun _ => "oid")
    [[("x", Prim.i 1)]] [("x", Prim.i 1)] 0
  have h2 := c8_insert_assigns_and_correlates 7 (fun _ => "oid")
    [[("x", Prim.i 1)]] [("ts", Prim.i 5), ("_id", Prim.s "Z")] 0
  exact ⟨h.1, h.2.1 0 (by decide) (by decide), h.2.2.1 (by rfl),
    h.2.2.2.2.1 (by rfl), h.2.2.2.2.2.2.1 (by rfl) (by rfl),
    h2.2.2.2.1 (Prim.i 5) (by rfl), h2.2.2.2.2.2.1 (Prim.s "Z") (by rfl)⟩

/-- Witness for C10: a successfully constructed handler over a capped
collection records tailable true and delete disabled. -/
theorem c10_capped_delete_witness :
    ({ idField := "id", tsField := "ts", schemasSingle := none,
       allowGet := false, allowPost := true, allowPut := true,
       allowDelete := false, tailable := true } : HandlerCfg).tailable
      = true ∧
    ({ idField := "id", tsField := "ts", schemasSingle := none,
       allowGet := false, allowPost := true, allowPut := true,
       allowDelete := false, tailable := true } : HandlerCfg).allowDelete
      = false :=
  (c10_capped_delete_rejected "id" "ts" none false true true false
    true).2.2
    ⟨"id", "ts", none, false, true, true, false, true⟩ (by rfl)
